import Mathlib

/-!
Verification of the core components of the Naruto-Reward-Bot repository:
the spam classifier (`core/spam_check.py`), the reward-interval state
machine (`core/event_manager.py`), the milestone tracker
(`core/milestones.py`) and the write-behind queue (`core/write_queue.py`).

Timestamps (Python `time.time()` floats) are modelled as rationals;
message counts and limits as naturals; Python deques as lists whose head
is the oldest element (`popleft` = drop from the head, `append` = push at
the tail).
-/

namespace NarutoBot

/-! ## Spam classifier (`core/spam_check.py`) -/

/-- Result of `SpamDetector.is_spam`: Python returns `False` (allow),
`True` (sender currently ignored) or a `(kind, detail)` tuple. -/
inductive Decision where
  | allow : Decision
  | alreadyIgnored : Decision
  | spam (kind : String) (detail : String) : Decision
deriving DecidableEq

/-- The `self.types` toggle dictionary. -/
structure SpamTypes where
  burst : Bool
  flood : Bool
  duplicate : Bool
  lowquality : Bool
  stickers : Bool
deriving DecidableEq

/-- State and configuration of `SpamDetector`.  Histories are per-user
maps (Python `defaultdict`, so a missing user reads as the empty deque). -/
@[ext]
structure SpamDetector where
  enabled : Bool
  threshold : ℚ
  ignore_duration : ℚ
  burst_limit : ℕ
  burst_window : ℚ
  global_flood_limit : ℕ
  global_flood_window : ℚ
  raid_limit : ℕ
  duplicate_threshold : ℚ
  media_limit : ℕ
  media_window : ℚ
  types : SpamTypes
  user_history : ℕ → List (ℚ × String)
  media_history : ℕ → List ℚ
  global_history : List ℚ
  ignored_users : ℕ → Option ℚ

/-- `SpamDetector.__init__` with all default arguments. -/
def SpamDetector.init : SpamDetector where
  enabled := true
  threshold := 5
  ignore_duration := 1800
  burst_limit := 5
  burst_window := 10
  global_flood_limit := 20
  global_flood_window := 3
  raid_limit := 5
  duplicate_threshold := 85 / 100
  media_limit := 3
  media_window := 5
  types := ⟨true, true, true, true, true⟩
  user_history := fun _ => []
  media_history := fun _ => []
  global_history := []
  ignored_users := fun _ => none

/-- `while deque and deque[0] < now - window: deque.popleft()` on a deque
of timestamps. -/
def pruneTimes (window now : ℚ) (l : List ℚ) : List ℚ :=
  l.dropWhile (fun t => decide (t < now - window))

/-- The same pruning loop on the `(timestamp, text)` user history. -/
def pruneHist (window now : ℚ) (l : List (ℚ × String)) : List (ℚ × String) :=
  l.dropWhile (fun p => decide (p.1 < now - window))

/-- Python `int()` truncation toward zero on a rational. -/
def pyInt (q : ℚ) : ℤ :=
  if 0 ≤ q then q.floor else -((-q).floor)

/-- Point update of the `ignored_users` dict at one user. -/
def setIgnoredOpt (s : SpamDetector) (u : ℕ) (v : Option ℚ) : SpamDetector :=
  { s with ignored_users := fun w => if w = u then v else s.ignored_users w }

/-- `self.ignored_users[user_id] = now + self.ignore_duration` -/
def setIgnored (s : SpamDetector) (u : ℕ) (untilTime : ℚ) : SpamDetector :=
  setIgnoredOpt s u (some untilTime)

/-- Replace a user's stored message history deque. -/
def setHist (s : SpamDetector) (u : ℕ) (l : List (ℚ × String)) : SpamDetector :=
  { s with user_history := fun w => if w = u then l else s.user_history w }

/-- `history.append((now, text))` -/
def appendHist (s : SpamDetector) (u : ℕ) (e : ℚ × String) : SpamDetector :=
  setHist s u (s.user_history u ++ [e])

/-- Replace a user's media-timestamp deque. -/
def setMedia (s : SpamDetector) (u : ℕ) (l : List ℚ) : SpamDetector :=
  { s with media_history := fun w => if w = u then l else s.media_history w }

/-- `SpamDetector.is_ignored`: lazily evicts an expired entry on access. -/
def is_ignored (s : SpamDetector) (now : ℚ) (u : ℕ) : Bool × SpamDetector :=
  match s.ignored_users u with
  | some e => if now < e then (true, s) else (false, setIgnoredOpt s u none)
  | none => (false, s)

/-- Length of the initial run of a given character. -/
def runLen (c : Char) : List Char → ℕ
  | [] => 0
  | d :: rest => if d = c then runLen c rest + 1 else 0

/-- Whether the text contains a run of at least `k` identical consecutive
characters; `hasRunGe 10` models the `re.search` of the pattern
matching a character followed by nine or more copies of itself. -/
def hasRunGe (k : ℕ) : List Char → Bool
  | [] => false
  | c :: rest => decide (k ≤ runLen c rest + 1) || hasRunGe k rest

/-- A word character (letter, digit or underscore), the character class
counted by the low-quality check. -/
def wordChar (c : Char) : Bool :=
  c.isAlphanum || c = '_'

/-- Number of word characters in the text. -/
def wordCount (t : String) : ℕ :=
  (t.data.filter wordChar).length

/-- The duplicate counter of `is_spam` lines 96-104: an exact match
counts, otherwise an entry counts when the similarity ratio (difflib
`SequenceMatcher(None, text, old_text).ratio()`, passed in as the
external function `sim`) reaches the threshold. -/
def dupMatches (sim : String → String → ℚ) (thr : ℚ) (text : String)
    (hist : List (ℚ × String)) : ℕ :=
  hist.countP (fun p => p.2 == text || decide (thr ≤ sim text p.2))

/-- `int(now - history[0][0]) if history else 0`, the burst detail span. -/
def burstSpan (now : ℚ) : List (ℚ × String) → ℤ
  | [] => 0
  | p :: _ => pyInt (now - p.1)

/-- Lines 93-131 of `is_spam`: text analysis (duplicate and low-quality
checks, for non-media nonempty text) and the final history append.  The
caller has already stored the pruned history in `s`. -/
def spamText (sim : String → String → ℚ) (s : SpamDetector) (now : ℚ) (u : ℕ)
    (text : String) (is_media : Bool) : Decision × SpamDetector :=
  if !is_media && text ≠ "" then
    let hist := s.user_history u
    if s.types.duplicate && decide (2 ≤ dupMatches sim s.duplicate_threshold text hist) then
      (Decision.spam "duplicate"
        (toString (dupMatches sim s.duplicate_threshold text hist + 1) ++ " similar messages"),
       setIgnored s u (now + s.ignore_duration))
    else if s.types.lowquality && hasRunGe 10 text.data then
      (Decision.spam "lowquality" "Repeated characters",
       setIgnored s u (now + s.ignore_duration))
    else if s.types.lowquality && (decide (5 < text.length) && decide (wordCount text < 2)) then
      (Decision.spam "lowquality" "Symbol/Emoji spam",
       setIgnored s u (now + s.ignore_duration))
    else (Decision.allow, appendHist s u (now, text))
  else (Decision.allow, appendHist s u (now, text))

/-- Lines 79-90 of `is_spam`: unconditional pruning of the user history
to the burst window, then the burst check. -/
def spamBurst (sim : String → String → ℚ) (s : SpamDetector) (now : ℚ) (u : ℕ)
    (text : String) (is_media : Bool) : Decision × SpamDetector :=
  let hist := pruneHist s.burst_window now (s.user_history u)
  let s1 := setHist s u hist
  if s1.types.burst && decide (s1.burst_limit ≤ hist.length) then
    (Decision.spam "burst"
      (toString hist.length ++ " msgs in " ++ toString (burstSpan now hist) ++ "s"),
     setIgnored s1 u (now + s1.ignore_duration))
  else spamText sim s1 now u text is_media

/-- Lines 68-77 of `is_spam`: media / sticker window check. -/
def spamMedia (sim : String → String → ℚ) (s : SpamDetector) (now : ℚ) (u : ℕ)
    (text : String) (is_media : Bool) : Decision × SpamDetector :=
  if is_media && s.types.stickers then
    let m := pruneTimes s.media_window now (s.media_history u ++ [now])
    let s1 := setMedia s u m
    if decide (s1.media_limit < m.length) then
      (Decision.spam "stickers"
        (toString m.length ++ " stickers in " ++ toString s1.media_window ++ "s"),
       setIgnored s1 u (now + s1.ignore_duration))
    else spamBurst sim s1 now u text is_media
  else spamBurst sim s now u text is_media

/-- Lines 59-66 of `is_spam`: append `now` to the global deque, prune it
to the global flood window, fire when its size exceeds the limit. -/
def spamFlood (sim : String → String → ℚ) (s : SpamDetector) (now : ℚ) (u : ℕ)
    (text : String) (is_media : Bool) : Decision × SpamDetector :=
  if s.types.flood then
    let gh := pruneTimes s.global_flood_window now (s.global_history ++ [now])
    let s1 := { s with global_history := gh }
    if decide (s1.global_flood_limit < gh.length) then
      (Decision.spam "global_flood"
        (toString gh.length ++ " msgs in " ++ toString s1.global_flood_window ++ "s"), s1)
    else spamMedia sim s1 now u text is_media
  else spamMedia sim s now u text is_media

/-- `SpamDetector.is_spam`.  `sim` is the external difflib similarity
ratio; `now` is the `time.time()` call at the top of the method. -/
def is_spam (sim : String → String → ℚ) (s : SpamDetector) (now : ℚ) (u : ℕ)
    (text : String) (is_media is_whitelisted : Bool) : Decision × SpamDetector :=
  if !s.enabled then (Decision.allow, s)
  else if is_whitelisted then (Decision.allow, s)
  else
    let p := is_ignored s now u
    if p.1 then (Decision.alreadyIgnored, p.2)
    else spamFlood sim p.2 now u text is_media

/-- A message as fed to `is_spam`: arrival time, sender, text, media flag
(all senders non-whitelisted). -/
structure Msg where
  time : ℚ
  user : ℕ
  text : String
  media : Bool
deriving DecidableEq

/-- Run `is_spam` over a message sequence, collecting the decisions. -/
def runMsgs (sim : String → String → ℚ) (s : SpamDetector) :
    List Msg → List Decision × SpamDetector
  | [] => ([], s)
  | m :: rest =>
      let r := is_spam sim s m.time m.user m.text m.media false
      let rr := runMsgs sim r.2 rest
      (r.1 :: rr.1, rr.2)

/-- A similarity function that never meets any positive threshold; used
to instantiate witnesses whose texts are never compared. -/
def simZero : String → String → ℚ := fun _ _ => 0

/-! ### Basic lemmas about the spam-state helpers -/

theorem setHist_self (s : SpamDetector) (u : ℕ) : setHist s u (s.user_history u) = s := by
  obtain ⟨en, th, igd, bl, bw, gfl, gfw, rl, dt, ml, mw, ty, uh, mh, gh, ig⟩ := s
  simp only [setHist]
  congr 1
  funext w
  by_cases h : w = u <;> simp [h]

theorem setHist_setHist (s : SpamDetector) (u : ℕ) (l l2 : List (ℚ × String)) :
    setHist (setHist s u l) u l2 = setHist s u l2 := by
  simp only [setHist]
  congr 1
  funext w
  by_cases h : w = u <;> simp [h]

theorem pruneHist_eq_self (window now : ℚ) (l : List (ℚ × String))
    (h : ∀ p ∈ l, now - window ≤ p.1) : pruneHist window now l = l := by
  cases l with
  | nil => rfl
  | cons p rest =>
      simp only [pruneHist, List.dropWhile_cons]
      rw [decide_eq_false (not_lt.mpr (h p (List.mem_cons_self p rest)))]
      simp

theorem pruneTimes_eq_self (window now : ℚ) (l : List ℚ)
    (h : ∀ t ∈ l, now - window ≤ t) : pruneTimes window now l = l := by
  cases l with
  | nil => rfl
  | cons t rest =>
      simp only [pruneTimes, List.dropWhile_cons]
      rw [decide_eq_false (not_lt.mpr (h t (List.mem_cons_self t rest)))]
      simp

/-! ### Single-call behaviour of `is_spam` -/

/-- A disabled detector allows everything and changes nothing. -/
theorem is_spam_disabled (sim : String → String → ℚ) (s : SpamDetector) (now : ℚ) (u : ℕ)
    (text : String) (is_media is_whitelisted : Bool) (h : s.enabled = false) :
    is_spam sim s now u text is_media is_whitelisted = (Decision.allow, s) := by
  simp [is_spam, h]

/-- A whitelisted sender is allowed and nothing changes. -/
theorem is_spam_whitelisted (sim : String → String → ℚ) (s : SpamDetector) (now : ℚ) (u : ℕ)
    (text : String) (is_media : Bool) :
    is_spam sim s now u text is_media true = (Decision.allow, s) := by
  cases h : s.enabled <;> simp [is_spam, h]

/-- A currently-ignored sender short-circuits every other check and the
whole state is untouched. -/
theorem is_spam_ignored_step (sim : String → String → ℚ) (s : SpamDetector) (now : ℚ) (u : ℕ)
    (text : String) (is_media : Bool) (e : ℚ) (hen : s.enabled = true)
    (hig : s.ignored_users u = some e) (hlt : now < e) :
    is_spam sim s now u text is_media false = (Decision.alreadyIgnored, s) := by
  simp [is_spam, is_ignored, hen, hig, hlt]

/-- The lazy eviction of an expired ignore entry by `is_ignored`. -/
theorem is_ignored_expired (s : SpamDetector) (now : ℚ) (u : ℕ) (e : ℚ)
    (hig : s.ignored_users u = some e) (hle : e ≤ now) :
    is_ignored s now u = (false, setIgnoredOpt s u none) := by
  simp [is_ignored, hig, not_lt.mpr hle]

/-- An allowed message with empty text: no earlier check fires, the
message is appended to the user's history and nothing else changes.
Hypotheses: enabled, global flood disabled, user not ignored, the user's
history already inside the burst window, and strictly fewer retained
messages than `burst_limit`. -/
theorem is_spam_allow_empty (sim : String → String → ℚ) (s : SpamDetector) (now : ℚ) (u : ℕ)
    (hen : s.enabled = true) (hfl : s.types.flood = false)
    (hig : s.ignored_users u = none)
    (hpr : pruneHist s.burst_window now (s.user_history u) = s.user_history u)
    (hlt : (s.user_history u).length < s.burst_limit) :
    is_spam sim s now u "" false false = (Decision.allow, appendHist s u (now, "")) := by
  simp only [is_spam, hen, Bool.not_true, Bool.false_eq_true, if_false, is_ignored, hig]
  simp only [spamFlood, hfl, Bool.false_eq_true, if_false, spamMedia, Bool.false_and,
    spamBurst, hpr, setHist_self, spamText]
  rw [decide_eq_false (not_le.mpr hlt)]
  simp [appendHist]

/-- The burst check fires as soon as the pruned prior history already
holds at least `burst_limit` entries; the sender is ignored from
`now + ignore_duration`. -/
theorem is_spam_burst_fire (sim : String → String → ℚ) (s : SpamDetector) (now : ℚ) (u : ℕ)
    (text : String) (hen : s.enabled = true) (hfl : s.types.flood = false)
    (hig : s.ignored_users u = none) (hb : s.types.burst = true)
    (hpr : pruneHist s.burst_window now (s.user_history u) = s.user_history u)
    (hge : s.burst_limit ≤ (s.user_history u).length) :
    is_spam sim s now u text false false =
      (Decision.spam "burst" (toString (s.user_history u).length ++ " msgs in " ++
         toString (burstSpan now (s.user_history u)) ++ "s"),
       setIgnored s u (now + s.ignore_duration)) := by
  simp only [is_spam, hen, Bool.not_true, Bool.false_eq_true, if_false, is_ignored, hig]
  simp only [spamFlood, hfl, Bool.false_eq_true, if_false, spamMedia, Bool.false_and,
    spamBurst, hpr, setHist_self, hb]
  rw [decide_eq_true (p := s.burst_limit ≤ (s.user_history u).length) hge]
  simp

/-! ### Runs of messages -/

theorem runMsgs_nil (sim : String → String → ℚ) (s : SpamDetector) :
    runMsgs sim s [] = ([], s) := rfl

theorem runMsgs_cons (sim : String → String → ℚ) (s : SpamDetector) (m : Msg) (rest : List Msg) :
    runMsgs sim s (m :: rest) =
      ((is_spam sim s m.time m.user m.text m.media false).1 ::
         (runMsgs sim (is_spam sim s m.time m.user m.text m.media false).2 rest).1,
       (runMsgs sim (is_spam sim s m.time m.user m.text m.media false).2 rest).2) := rfl

theorem runMsgs_append (sim : String → String → ℚ) (l1 l2 : List Msg) :
    ∀ s : SpamDetector,
      runMsgs sim s (l1 ++ l2) =
        ((runMsgs sim s l1).1 ++ (runMsgs sim (runMsgs sim s l1).2 l2).1,
         (runMsgs sim (runMsgs sim s l1).2 l2).2) := by
  induction l1 with
  | nil => intro s; simp [runMsgs_nil]
  | cons m rest ih => intro s; simp [runMsgs_cons, ih]

/-- A whole run of empty-text messages from one user, all inside one
burst window and too few to reach `burst_limit`: every message is
allowed and the only state change is the user's growing history. -/
theorem runMsgs_allow_empty (sim : String → String → ℚ) (u : ℕ) (lo hi : ℚ) :
    ∀ (ts : List ℚ) (s : SpamDetector),
      s.enabled = true → s.types.flood = false → s.ignored_users u = none →
      hi - s.burst_window ≤ lo →
      (∀ p ∈ s.user_history u, lo ≤ p.1) →
      (∀ t ∈ ts, lo ≤ t ∧ t ≤ hi) →
      (s.user_history u).length + ts.length ≤ s.burst_limit →
      runMsgs sim s (ts.map fun t => ⟨t, u, "", false⟩) =
        (List.replicate ts.length Decision.allow,
         setHist s u (s.user_history u ++ ts.map fun t => (t, ""))) := by
  intro ts
  induction ts with
  | nil =>
      intro s hen hfl hig hw hpre hts hlen
      simp [runMsgs_nil, setHist_self]
  | cons t ts ih =>
      intro s hen hfl hig hw hpre hts hlen
      obtain ⟨hlo, hhi⟩ := hts t (List.mem_cons_self t ts)
      have hpr : pruneHist s.burst_window t (s.user_history u) = s.user_history u := by
        refine pruneHist_eq_self _ _ _ (fun p hp => ?_)
        have := hpre p hp
        linarith
      have hstep := is_spam_allow_empty sim s t u hen hfl hig hpr
        (by simp at hlen; omega)
      set s2 := appendHist s u (t, "") with hs2
      have h2en : s2.enabled = s.enabled := rfl
      have h2ty : s2.types = s.types := rfl
      have h2ig : s2.ignored_users = s.ignored_users := rfl
      have h2bw : s2.burst_window = s.burst_window := rfl
      have h2bl : s2.burst_limit = s.burst_limit := rfl
      have h2uh : s2.user_history u = s.user_history u ++ [(t, "")] := by
        simp [hs2, appendHist, setHist]
      have hrest := ih s2 (h2en ▸ hen) (h2ty ▸ hfl) (h2ig ▸ hig) (h2bw ▸ hw)
        (by
          rw [h2uh]
          intro p hp
          rcases List.mem_append.mp hp with h | h
          · exact hpre p h
          · simp at h; subst h; exact hlo)
        (fun x hx => hts x (List.mem_cons_of_mem t hx))
        (by rw [h2uh, h2bl]; simp at hlen ⊢; omega)
      simp only [List.map_cons, runMsgs_cons, hstep, hrest, List.replicate_succ]
      have hstate : setHist s2 u (s2.user_history u ++ (ts.map fun x => (x, ""))) =
          setHist s u (s.user_history u ++ (t, "") :: (ts.map fun x => (x, ""))) := by
        rw [h2uh, hs2]
        simp only [appendHist]
        rw [setHist_setHist, List.append_assoc]
        simp
      rw [hstate]
      simp [List.replicate_succ]

/-! ### Claim C1: the burst check -/

/-- C1 (counterexample): with `burst_limit = 3` and `burst_window = 10`,
empty-text messages from user 1 at t = 0, 1, 2 are all allowed — the
3rd message of the sequence is not classified `"burst"`; the check only
fires once the pruned prior history already holds `burst_limit` entries,
i.e. on the (`burst_limit`+1)-th message. -/
theorem burst_third_message_allowed :
    (runMsgs simZero { SpamDetector.init with burst_limit := 3, burst_window := 10 }
      [⟨0, 1, "", false⟩, ⟨1, 1, "", false⟩, ⟨2, 1, "", false⟩]).1 =
      [Decision.allow, Decision.allow, Decision.allow] := by
  with_unfolding_all decide

/-- C1 (amended): for a fresh, never-ignored user and a sequence of
`burst_limit` empty-text messages inside one burst window (burst enabled,
flood disabled, detector enabled, sender not whitelisted), all
`burst_limit` messages are allowed and the (`burst_limit`+1)-th message
inside the window is classified `"burst"`, setting
`ignore_until = tN + ignore_duration`; every later call for that user
before `ignore_until` yields `AlreadyIgnored`. -/
theorem burst_fires_on_limit_plus_one (sim : String → String → ℚ) (s : SpamDetector)
    (u : ℕ) (lo hi : ℚ) (ts : List ℚ) (tN : ℚ)
    (hen : s.enabled = true) (hb : s.types.burst = true) (hfl : s.types.flood = false)
    (hig : s.ignored_users u = none) (hstart : s.user_history u = [])
    (hlen : ts.length = s.burst_limit)
    (hts : ∀ t ∈ ts, lo ≤ t ∧ t ≤ hi) (hNhi : tN ≤ hi)
    (hw : hi - s.burst_window ≤ lo) :
    (runMsgs sim s ((ts ++ [tN]).map fun t => ⟨t, u, "", false⟩)).1 =
        List.replicate s.burst_limit Decision.allow ++
          [Decision.spam "burst" (toString s.burst_limit ++ " msgs in " ++
             toString (burstSpan tN (ts.map fun t => (t, ""))) ++ "s")] ∧
      (runMsgs sim s ((ts ++ [tN]).map fun t => ⟨t, u, "", false⟩)).2.ignored_users u =
        some (tN + s.ignore_duration) ∧
      ∀ (t2 : ℚ) (text2 : String) (m2 : Bool), t2 < tN + s.ignore_duration →
        (is_spam sim (runMsgs sim s ((ts ++ [tN]).map fun t => ⟨t, u, "", false⟩)).2
            t2 u text2 m2 false).1 = Decision.alreadyIgnored := by
  have hrun := runMsgs_allow_empty sim u lo hi ts s hen hfl hig hw
    (by rw [hstart]; simp) hts (by rw [hstart]; simp [hlen])
  rw [hstart, List.nil_append] at hrun
  set s1 := setHist s u (ts.map fun t => (t, "")) with hs1
  have h1uh : s1.user_history u = ts.map fun t => (t, "") := by simp [hs1, setHist]
  have h1bw : s1.burst_window = s.burst_window := rfl
  have h1bl : s1.burst_limit = s.burst_limit := rfl
  have h1id : s1.ignore_duration = s.ignore_duration := rfl
  have hpr1 : pruneHist s1.burst_window tN (s1.user_history u) = s1.user_history u := by
    rw [h1uh, h1bw]
    refine pruneHist_eq_self _ _ _ (fun p hp => ?_)
    obtain ⟨x, hx, hxp⟩ := List.mem_map.mp hp
    obtain ⟨h1, h2⟩ := hts x hx
    rw [← hxp]
    show tN - s.burst_window ≤ x
    linarith
  have hge1 : s1.burst_limit ≤ (s1.user_history u).length := by
    rw [h1uh, h1bl, List.length_map, hlen]
  have hfire := is_spam_burst_fire sim s1 tN u "" hen hfl hig hb hpr1 hge1
  have hfin : runMsgs sim s ((ts ++ [tN]).map fun t => ⟨t, u, "", false⟩) =
      (List.replicate s.burst_limit Decision.allow ++
         [Decision.spam "burst" (toString s.burst_limit ++ " msgs in " ++
            toString (burstSpan tN (ts.map fun t => (t, ""))) ++ "s")],
       setIgnored s1 u (tN + s.ignore_duration)) := by
    rw [show (ts ++ [tN]).map (fun t => (⟨t, u, "", false⟩ : Msg)) =
          (ts.map fun t => ⟨t, u, "", false⟩) ++ [⟨tN, u, "", false⟩] by simp,
        runMsgs_append, hrun]
    simp only [runMsgs_cons, runMsgs_nil, hfire, h1uh, h1id, List.length_map, hlen]
  refine ⟨by rw [hfin], by rw [hfin]; simp [setIgnored, setIgnoredOpt], ?_⟩
  intro t2 text2 m2 hlt
  rw [hfin]
  have hig2 : (setIgnored s1 u (tN + s.ignore_duration)).ignored_users u =
      some (tN + s.ignore_duration) := by simp [setIgnored, setIgnoredOpt]
  have hstep2 := is_spam_ignored_step sim (setIgnored s1 u (tN + s.ignore_duration))
    t2 u text2 m2 (tN + s.ignore_duration) hen hig2 hlt
  show (is_spam sim (setIgnored s1 u (tN + s.ignore_duration)) t2 u text2 m2 false).1 =
    Decision.alreadyIgnored
  rw [hstep2]

/-- Detector used in the C1 witness: burst fires at 3 messages in a
10-second window, global flood checking off. -/
def burstWitnessDetector : SpamDetector :=
  { SpamDetector.init with
    burst_limit := 3
    burst_window := 10
    types := ⟨true, false, true, true, true⟩ }

/-- C1 (witness): the amended theorem at `burst_limit = 3`,
`burst_window = 10`, messages at t = 0, 1, 2, 3 — the 4th message is the
burst verdict, and a call at t = 4 is `AlreadyIgnored`. -/
theorem burst_fires_on_limit_plus_one_witness :
    ((3 : ℚ) - 10 ≤ 0 ∧ burstWitnessDetector.user_history 1 = []) ∧
      (runMsgs simZero burstWitnessDetector
          (([0, 1, 2] ++ [3]).map fun t => ⟨t, 1, "", false⟩)).1 =
        List.replicate burstWitnessDetector.burst_limit Decision.allow ++
          [Decision.spam "burst" (toString burstWitnessDetector.burst_limit ++ " msgs in " ++
             toString (burstSpan 3 ([0, 1, 2].map fun t => ((t : ℚ), ""))) ++ "s")] ∧
      (is_spam simZero
          (runMsgs simZero burstWitnessDetector
            (([0, 1, 2] ++ [3]).map fun t => ⟨t, 1, "", false⟩)).2 4 1 "hi" false false).1 =
        Decision.alreadyIgnored := by
  have h := burst_fires_on_limit_plus_one simZero burstWitnessDetector 1 0 3 [0, 1, 2] 3
    rfl rfl rfl rfl rfl rfl
    (by intro t ht; fin_cases ht <;> exact ⟨by decide, by decide⟩)
    (by decide) (by with_unfolding_all decide)
  exact ⟨⟨by with_unfolding_all decide, rfl⟩,
    h.1, h.2.2 4 "hi" false (by with_unfolding_all decide)⟩

/-! ### Claim C3: the global flood check -/

/-- The verdict the flood check produces for the i-th message (0-based)
of a within-window run that starts with `base` timestamps already in the
global window. -/
def floodVerdict (base limit : ℕ) (gfw : ℚ) (i : ℕ) : Decision :=
  if base + i + 1 ≤ limit then Decision.allow
  else Decision.spam "global_flood"
    (toString (base + i + 1) ++ " msgs in " ++ toString gfw ++ "s")

theorem floodVerdict_succ (base limit : ℕ) (gfw : ℚ) (i : ℕ) :
    floodVerdict (base + 1) limit gfw i = floodVerdict base limit gfw (i + 1) := by
  simp only [floodVerdict]
  have h : base + 1 + i + 1 = base + (i + 1) + 1 := by omega
  rw [h]

/-- The global flood check fires: the appended-and-pruned window exceeds
the limit, the verdict is returned at once, and only the global window
changed (no per-user ignore is set). -/
theorem is_spam_flood_fire (sim : String → String → ℚ) (s : SpamDetector) (now : ℚ) (u : ℕ)
    (text : String) (is_media : Bool) (hen : s.enabled = true) (hfl : s.types.flood = true)
    (hig : s.ignored_users u = none)
    (hpr : pruneTimes s.global_flood_window now (s.global_history ++ [now]) =
      s.global_history ++ [now])
    (hgt : s.global_flood_limit < s.global_history.length + 1) :
    is_spam sim s now u text is_media false =
      (Decision.spam "global_flood" (toString (s.global_history.length + 1) ++ " msgs in " ++
         toString s.global_flood_window ++ "s"),
       { s with global_history := s.global_history ++ [now] }) := by
  simp only [is_spam, hen, Bool.not_true, Bool.false_eq_true, if_false, is_ignored, hig]
  simp only [spamFlood, hfl, if_true, hpr]
  rw [decide_eq_true (show s.global_flood_limit < (s.global_history ++ [now]).length by
    simp; omega)]
  simp [hen]

/-- The global flood check passes (window within the limit) and, with
burst checking off and an empty non-media text, the message is allowed:
the timestamp enters the global window and the message the history. -/
theorem is_spam_flood_allow (sim : String → String → ℚ) (s : SpamDetector) (now : ℚ) (u : ℕ)
    (hen : s.enabled = true) (hfl : s.types.flood = true) (hb : s.types.burst = false)
    (hig : s.ignored_users u = none)
    (hprG : pruneTimes s.global_flood_window now (s.global_history ++ [now]) =
      s.global_history ++ [now])
    (hle : s.global_history.length + 1 ≤ s.global_flood_limit)
    (hprU : pruneHist s.burst_window now (s.user_history u) = s.user_history u) :
    is_spam sim s now u "" false false =
      (Decision.allow,
       appendHist { s with global_history := s.global_history ++ [now] } u (now, "")) := by
  simp only [is_spam, hen, Bool.not_true, Bool.false_eq_true, if_false, is_ignored, hig]
  simp only [spamFlood, hfl, if_true, hprG]
  rw [decide_eq_false (show ¬s.global_flood_limit < (s.global_history ++ [now]).length by
    simp; omega)]
  simp only [spamMedia, Bool.false_and, if_false, spamBurst, hprU, setHist_self, hb,
    Bool.false_eq_true, spamText]
  simp [hen]

/-- A run of empty-text messages from one never-ignored user with flood
checking on and burst checking off, everything inside one window: the
i-th message is allowed while the window stays within the limit and is
classified `"global_flood"` on every message past it. -/
theorem runMsgs_flood_run (sim : String → String → ℚ) (u : ℕ) (lo hi : ℚ) :
    ∀ (ts : List ℚ) (s : SpamDetector),
      s.enabled = true → s.types.flood = true → s.types.burst = false →
      s.ignored_users u = none →
      hi - s.global_flood_window ≤ lo → hi - s.burst_window ≤ lo →
      (∀ t ∈ s.global_history, lo ≤ t) →
      (∀ p ∈ s.user_history u, lo ≤ p.1) →
      (∀ t ∈ ts, lo ≤ t ∧ t ≤ hi) →
      (runMsgs sim s (ts.map fun t => ⟨t, u, "", false⟩)).1 =
        (List.range ts.length).map
          (floodVerdict s.global_history.length s.global_flood_limit s.global_flood_window) ∧
      ∃ uh2, (∀ p ∈ uh2 u, lo ≤ p.1) ∧
        (runMsgs sim s (ts.map fun t => ⟨t, u, "", false⟩)).2 =
          { s with global_history := s.global_history ++ ts, user_history := uh2 } := by
  intro ts
  induction ts with
  | nil =>
      intro s hen hfl hb hig hwG hwB hgh hpre hts
      refine ⟨by simp [runMsgs_nil], s.user_history, hpre, ?_⟩
      simp [runMsgs_nil]
  | cons t ts ih =>
      intro s hen hfl hb hig hwG hwB hgh hpre hts
      obtain ⟨hlo, hhi⟩ := hts t (List.mem_cons_self t ts)
      have hprG : pruneTimes s.global_flood_window t (s.global_history ++ [t]) =
          s.global_history ++ [t] := by
        refine pruneTimes_eq_self _ _ _ (fun x hx => ?_)
        rcases List.mem_append.mp hx with h | h
        · have := hgh x h; linarith
        · simp at h; subst h; linarith
      have hassoc : (s.global_history ++ [t]) ++ ts = s.global_history ++ t :: ts := by
        simp
      by_cases hcase : s.global_flood_limit < s.global_history.length + 1
      · -- the window is already over the limit: this and every further
        -- message in the window fires
        have hstep := is_spam_flood_fire sim s t u "" false hen hfl hig hprG hcase
        set s2 : SpamDetector := { s with global_history := s.global_history ++ [t] } with hs2
        have hrest := ih s2 hen hfl hb hig hwG hwB
          (by
            intro x hx
            rcases List.mem_append.mp hx with h | h
            · exact hgh x h
            · simp at h; subst h; exact hlo)
          hpre (fun x hx => hts x (List.mem_cons_of_mem t hx))
        obtain ⟨hdec, uh2, hbound, hstate⟩ := hrest
        refine ⟨?_, uh2, hbound, ?_⟩
        · simp only [List.map_cons, runMsgs_cons, hstep, hdec, List.length_cons,
            List.range_succ_eq_map, List.map_map]
          have h2len : s2.global_history.length = s.global_history.length + 1 := by
            simp [hs2]
          rw [h2len]
          congr 1
          · simp only [floodVerdict]
            rw [if_neg (by omega)]
          · refine List.map_congr_left (fun i hi2 => ?_)
            simp only [Function.comp]
            rw [floodVerdict_succ]
        · simp only [List.map_cons, runMsgs_cons, hstep, hstate]
          simp [hs2, hassoc]
      · -- window still within the limit: allowed
        have hprU : pruneHist s.burst_window t (s.user_history u) = s.user_history u := by
          refine pruneHist_eq_self _ _ _ (fun p hp => ?_)
          have := hpre p hp; linarith
        have hstep := is_spam_flood_allow sim s t u hen hfl hb hig hprG (by omega) hprU
        set s2 : SpamDetector :=
          appendHist { s with global_history := s.global_history ++ [t] } u (t, "") with hs2
        have h2uh : s2.user_history u = s.user_history u ++ [(t, "")] := by
          simp [hs2, appendHist, setHist]
        have h2gh : s2.global_history = s.global_history ++ [t] := rfl
        have hrest := ih s2 hen hfl hb hig hwG hwB
          (by
            rw [h2gh]
            intro x hx
            rcases List.mem_append.mp hx with h | h
            · exact hgh x h
            · simp at h; subst h; exact hlo)
          (by
            rw [h2uh]
            intro p hp
            rcases List.mem_append.mp hp with h | h
            · exact hpre p h
            · simp at h; subst h; exact hlo)
          (fun x hx => hts x (List.mem_cons_of_mem t hx))
        obtain ⟨hdec, uh2, hbound, hstate⟩ := hrest
        refine ⟨?_, uh2, hbound, ?_⟩
        · simp only [List.map_cons, runMsgs_cons, hstep, hdec, List.length_cons,
            List.range_succ_eq_map, List.map_map]
          have h2len : s2.global_history.length = s.global_history.length + 1 := by
            simp [h2gh]
          rw [h2len]
          congr 1
          · simp only [floodVerdict]
            rw [if_pos (by omega)]
          · refine List.map_congr_left (fun i hi2 => ?_)
            simp only [Function.comp]
            rw [floodVerdict_succ]
            rfl
        · simp only [List.map_cons, runMsgs_cons, hstep, hstate]
          simp [hs2, appendHist, setHist, hassoc]

/-- C3 (counterexample): with `global_flood_limit = 2` and
`global_flood_window = 10`, messages at t = 0, 1, 2, 3 produce the
`"global_flood"` verdict on both the 3rd and the 4th message — the
verdict recurs on every message while the window stays over the limit,
it is not produced exactly once per crossing. -/
theorem global_flood_fires_repeatedly :
    (runMsgs simZero
      { SpamDetector.init with
        global_flood_limit := 2
        global_flood_window := 10 }
      [⟨0, 1, "", false⟩, ⟨1, 2, "", false⟩, ⟨2, 3, "", false⟩, ⟨3, 4, "", false⟩]).1 =
      [Decision.allow, Decision.allow,
       Decision.spam "global_flood" "3 msgs in 10s",
       Decision.spam "global_flood" "4 msgs in 10s"] := by
  with_unfolding_all decide

/-- C3 (amended): with flood checking enabled (burst checking off, one
never-ignored, non-whitelisted sender, empty texts) and an initially
empty global window, in any within-window message sequence the i-th
message (1-based) is allowed while i ≤ `global_flood_limit` and is
classified `"global_flood"` for every i > `global_flood_limit` — the
(limit+1)-th message and all later in-window messages, not exactly once
per crossing. -/
theorem global_flood_fires_from_limit_plus_one (sim : String → String → ℚ)
    (s : SpamDetector) (u : ℕ) (lo hi : ℚ) (ts : List ℚ)
    (hen : s.enabled = true) (hfl : s.types.flood = true) (hb : s.types.burst = false)
    (hig : s.ignored_users u = none) (hghnil : s.global_history = [])
    (huh : s.user_history u = [])
    (hwG : hi - s.global_flood_window ≤ lo) (hwB : hi - s.burst_window ≤ lo)
    (hts : ∀ t ∈ ts, lo ≤ t ∧ t ≤ hi) :
    (runMsgs sim s (ts.map fun t => ⟨t, u, "", false⟩)).1 =
      (List.range ts.length).map (fun i =>
        if i + 1 ≤ s.global_flood_limit then Decision.allow
        else Decision.spam "global_flood" (toString (i + 1) ++ " msgs in " ++
          toString s.global_flood_window ++ "s")) := by
  have h := (runMsgs_flood_run sim u lo hi ts s hen hfl hb hig hwG hwB
    (by rw [hghnil]; simp) (by rw [huh]; simp) hts).1
  rw [hghnil] at h
  rw [h]
  refine List.map_congr_left (fun i hi2 => ?_)
  simp [floodVerdict]

/-- Detector used in the C3 witness: flood fires past 2 messages in a
10-second window, burst checking off. -/
def floodWitnessDetector : SpamDetector :=
  { SpamDetector.init with
    global_flood_limit := 2
    global_flood_window := 10
    types := ⟨false, true, true, true, true⟩ }

/-- C3 (witness): the amended theorem at `global_flood_limit = 2`,
messages at t = 0, 1, 2, 3. -/
theorem global_flood_fires_from_limit_plus_one_witness :
    ((3 : ℚ) - 10 ≤ 0 ∧ floodWitnessDetector.global_history = []) ∧
      (runMsgs simZero floodWitnessDetector
          ([0, 1, 2, 3].map fun t => ⟨t, 1, "", false⟩)).1 =
        (List.range 4).map (fun i =>
          if i + 1 ≤ floodWitnessDetector.global_flood_limit then Decision.allow
          else Decision.spam "global_flood" (toString (i + 1) ++ " msgs in " ++
            toString floodWitnessDetector.global_flood_window ++ "s")) := by
  have h := global_flood_fires_from_limit_plus_one simZero floodWitnessDetector 1 0 3
    [0, 1, 2, 3] rfl rfl rfl rfl rfl rfl
    (by with_unfolding_all decide) (by with_unfolding_all decide)
    (by intro t ht; fin_cases ht <;> exact ⟨by decide, by decide⟩)
  exact ⟨⟨by with_unfolding_all decide, rfl⟩, h⟩

/-! ### Claim C9: the duplicate check -/

/-- An allowed text message: no check fires (fewer than 2 duplicate
matches, no low-quality pattern, history under the burst limit) and the
`(now, text)` pair is appended to the user's history. -/
theorem is_spam_allow_text (sim : String → String → ℚ) (s : SpamDetector) (now : ℚ) (u : ℕ)
    (text : String) (hen : s.enabled = true) (hfl : s.types.flood = false)
    (hig : s.ignored_users u = none)
    (hpr : pruneHist s.burst_window now (s.user_history u) = s.user_history u)
    (hblt : (s.user_history u).length < s.burst_limit)
    (hdup : dupMatches sim s.duplicate_threshold text (s.user_history u) < 2)
    (hlq1 : hasRunGe 10 text.data = false)
    (hlq2 : ¬(5 < text.length ∧ wordCount text < 2)) :
    is_spam sim s now u text false false = (Decision.allow, appendHist s u (now, text)) := by
  have hlq2b : (decide (5 < text.length) && decide (wordCount text < 2)) = false := by
    by_cases h5 : 5 < text.length
    · have hnw : ¬wordCount text < 2 := fun hw => hlq2 ⟨h5, hw⟩
      simp [hnw]
    · simp [h5]
  simp only [is_spam, hen, Bool.not_true, Bool.false_eq_true, if_false, is_ignored, hig]
  simp only [spamFlood, hfl, Bool.false_eq_true, if_false, spamMedia, Bool.false_and,
    spamBurst, hpr, setHist_self]
  rw [decide_eq_false (not_le.mpr hblt)]
  simp only [Bool.and_false, Bool.false_eq_true, if_false, spamText]
  rw [decide_eq_false (not_le.mpr hdup)]
  simp [hlq1, hlq2b]

/-- The duplicate check fires: at least 2 retained messages match the
current text (exactly, or at similarity ratio ≥ `duplicate_threshold`),
no earlier check fired, and the sender is ignored. -/
theorem is_spam_duplicate_fire (sim : String → String → ℚ) (s : SpamDetector) (now : ℚ)
    (u : ℕ) (text : String) (hen : s.enabled = true) (hfl : s.types.flood = false)
    (hig : s.ignored_users u = none)
    (hpr : pruneHist s.burst_window now (s.user_history u) = s.user_history u)
    (hblt : (s.user_history u).length < s.burst_limit)
    (hT : text ≠ "") (hdupOn : s.types.duplicate = true)
    (hd : 2 ≤ dupMatches sim s.duplicate_threshold text (s.user_history u)) :
    is_spam sim s now u text false false =
      (Decision.spam "duplicate"
        (toString (dupMatches sim s.duplicate_threshold text (s.user_history u) + 1) ++
          " similar messages"),
       setIgnored s u (now + s.ignore_duration)) := by
  simp only [is_spam, hen, Bool.not_true, Bool.false_eq_true, if_false, is_ignored, hig]
  simp only [spamFlood, hfl, Bool.false_eq_true, if_false, spamMedia, Bool.false_and,
    spamBurst, hpr, setHist_self]
  rw [decide_eq_false (not_le.mpr hblt)]
  simp only [Bool.and_false, Bool.false_eq_true, if_false, spamText, hdupOn]
  rw [decide_eq_true (p := 2 ≤ dupMatches sim s.duplicate_threshold text (s.user_history u)) hd]
  simp [hT]

/-- C9: a fresh, never-ignored user sends the same text three times
inside one burst window (duplicate checking enabled, flood off, burst
limit above 2, text neither empty nor low-quality): the first two
messages are allowed and the third is classified `"duplicate"` — the two
retained exact matches reach the ≥ 2 threshold — and the user's
`ignore_until` is set to `t3 + ignore_duration`. -/
theorem duplicate_fires_on_third_identical (sim : String → String → ℚ) (s : SpamDetector)
    (u : ℕ) (text : String) (t1 t2 t3 : ℚ)
    (hen : s.enabled = true) (hfl : s.types.flood = false) (hdupOn : s.types.duplicate = true)
    (hig : s.ignored_users u = none) (huh : s.user_history u = [])
    (hbl : 2 < s.burst_limit)
    (hT : text ≠ "") (hlq1 : hasRunGe 10 text.data = false)
    (hlq2 : ¬(5 < text.length ∧ wordCount text < 2))
    (h12 : t1 ≤ t2) (h23 : t2 ≤ t3) (hw : t3 - s.burst_window ≤ t1) :
    (runMsgs sim s [⟨t1, u, text, false⟩, ⟨t2, u, text, false⟩, ⟨t3, u, text, false⟩]).1 =
      [Decision.allow, Decision.allow, Decision.spam "duplicate" "3 similar messages"] ∧
    (runMsgs sim s
        [⟨t1, u, text, false⟩, ⟨t2, u, text, false⟩, ⟨t3, u, text, false⟩]).2.ignored_users u =
      some (t3 + s.ignore_duration) := by
  have hstep1 := is_spam_allow_text sim s t1 u text hen hfl hig
    (by rw [huh]; rfl) (by rw [huh]; simpa using by omega)
    (by rw [huh]; simp [dupMatches]) hlq1 hlq2
  set s1 := appendHist s u (t1, text) with hs1
  have h1uh : s1.user_history u = [(t1, text)] := by
    simp [hs1, appendHist, setHist, huh]
  have hstep2 := is_spam_allow_text sim s1 t2 u text hen hfl hig
    (by
      rw [h1uh]
      refine pruneHist_eq_self _ _ _ (fun p hp => ?_)
      simp at hp; subst hp
      show t2 - s.burst_window ≤ t1
      linarith)
    (by rw [h1uh]; show 1 < s.burst_limit; omega)
    (by rw [h1uh]; simp [dupMatches]) hlq1 hlq2
  set s2 := appendHist s1 u (t2, text) with hs2
  have h2uh : s2.user_history u = [(t1, text), (t2, text)] := by
    simp [hs2, appendHist, setHist, h1uh]
  have hpr3 : pruneHist s2.burst_window t3 (s2.user_history u) = s2.user_history u := by
    rw [h2uh]
    refine pruneHist_eq_self _ _ _ (fun p hp => ?_)
    show t3 - s2.burst_window ≤ p.1
    simp at hp
    rcases hp with h | h <;> subst h
    · show t3 - s.burst_window ≤ t1; linarith
    · show t3 - s.burst_window ≤ t2; linarith
  have hfire := is_spam_duplicate_fire sim s2 t3 u text hen hfl hig hpr3
    (by rw [h2uh]; show 2 < s.burst_limit; omega) hT hdupOn
    (by rw [h2uh]; simp [dupMatches])
  have hdm : dupMatches sim s2.duplicate_threshold text (s2.user_history u) = 2 := by
    rw [h2uh]; simp [dupMatches]
  rw [hdm] at hfire
  have hts3 : toString (2 + 1) ++ " similar messages" = "3 similar messages" := rfl
  rw [hts3] at hfire
  constructor
  · simp only [runMsgs_cons, runMsgs_nil, hstep1, hstep2, hfire]
  · simp only [runMsgs_cons, runMsgs_nil, hstep1, hstep2, hfire]
    show (setIgnored s2 u (t3 + s2.ignore_duration)).ignored_users u =
      some (t3 + s.ignore_duration)
    simp only [setIgnored, setIgnoredOpt, if_pos rfl]
    rfl

/-- Detector used in the C9 witness: defaults with flood checking off. -/
def dupWitnessDetector : SpamDetector :=
  { SpamDetector.init with types := ⟨true, false, true, true, true⟩ }

/-- C9 (witness): the text "hello" sent three times at t = 0, 1, 2 is
allowed twice and classified `"duplicate"` on the third occurrence, with
the ignore timestamp set. -/
theorem duplicate_fires_on_third_identical_witness :
    ("hello" ≠ "" ∧ 2 < dupWitnessDetector.burst_limit) ∧
      (runMsgs simZero dupWitnessDetector
          [⟨0, 1, "hello", false⟩, ⟨1, 1, "hello", false⟩, ⟨2, 1, "hello", false⟩]).1 =
        [Decision.allow, Decision.allow, Decision.spam "duplicate" "3 similar messages"] ∧
      (runMsgs simZero dupWitnessDetector
          [⟨0, 1, "hello", false⟩, ⟨1, 1, "hello", false⟩,
           ⟨2, 1, "hello", false⟩]).2.ignored_users 1 =
        some (2 + dupWitnessDetector.ignore_duration) := by
  have h := duplicate_fires_on_third_identical simZero dupWitnessDetector 1 "hello" 0 1 2
    rfl rfl rfl rfl rfl (by decide) (by decide) (by decide) (by decide)
    (by decide) (by decide) (by with_unfolding_all decide)
  exact ⟨⟨by decide, by decide⟩, h.1, h.2⟩

/-! ### Claim C8: ignore dominance and lazy eviction -/

/-- C8: while `now < ignore_until` the verdict is `AlreadyIgnored` and
the entire detector state is unchanged; once `now ≥ ignore_until`, the
first `is_ignored` access removes the entry and the user is no longer
ignored. -/
theorem ignored_dominates_and_lazy_evicts (sim : String → String → ℚ) (s : SpamDetector)
    (now : ℚ) (u : ℕ) (text : String) (is_media : Bool) (e : ℚ)
    (hig : s.ignored_users u = some e) :
    (s.enabled = true → now < e →
      is_spam sim s now u text is_media false = (Decision.alreadyIgnored, s)) ∧
    (e ≤ now →
      is_ignored s now u = (false, setIgnoredOpt s u none) ∧
      (setIgnoredOpt s u none).ignored_users u = none ∧
      is_ignored (setIgnoredOpt s u none) now u = (false, setIgnoredOpt s u none)) := by
  refine ⟨fun hen hlt => is_spam_ignored_step sim s now u text is_media e hen hig hlt,
    fun hle => ⟨is_ignored_expired s now u e hig hle, ?_, ?_⟩⟩
  · simp [setIgnoredOpt]
  · simp [is_ignored, setIgnoredOpt]

/-- C8 (witness): a user ignored until t = 100: at t = 50 the call is
`AlreadyIgnored` with unchanged state; at t = 100 the entry is evicted. -/
theorem ignored_dominates_and_lazy_evicts_witness :
    (setIgnored SpamDetector.init 1 100).ignored_users 1 = some 100 ∧
      (is_spam simZero (setIgnored SpamDetector.init 1 100) 50 1 "hello" false false =
        (Decision.alreadyIgnored, setIgnored SpamDetector.init 1 100)) ∧
      is_ignored (setIgnored SpamDetector.init 1 100) 100 1 =
        (false, setIgnoredOpt (setIgnored SpamDetector.init 1 100) 1 none) := by
  have h := ignored_dominates_and_lazy_evicts simZero (setIgnored SpamDetector.init 1 100)
    50 1 "hello" false 100 (by simp [setIgnored, setIgnoredOpt])
  have h2 := ignored_dominates_and_lazy_evicts simZero (setIgnored SpamDetector.init 1 100)
    100 1 "hello" false 100 (by simp [setIgnored, setIgnoredOpt])
  exact ⟨by simp [setIgnored, setIgnoredOpt],
    h.1 rfl (by decide), (h2.2 (by decide)).1⟩

/-! ### Claim C10: disabled detector / whitelisted sender -/

/-- C10: with the detector disabled or the sender whitelisted, `is_spam`
returns the allow verdict and mutates nothing at all: the returned state
is the input state, so the global window, both per-user histories and
the ignore map are untouched. -/
theorem disabled_or_whitelisted_allows_without_mutation (sim : String → String → ℚ)
    (s : SpamDetector) (now : ℚ) (u : ℕ) (text : String) (is_media is_whitelisted : Bool)
    (h : s.enabled = false ∨ is_whitelisted = true) :
    is_spam sim s now u text is_media is_whitelisted = (Decision.allow, s) := by
  rcases h with h | h
  · exact is_spam_disabled sim s now u text is_media is_whitelisted h
  · rw [h]
    exact is_spam_whitelisted sim s now u text is_media

/-- C10 (witness): a whitelisted sender mid-flood, and a disabled
detector, both produce `Allow` with the state returned unchanged. -/
theorem disabled_or_whitelisted_allows_without_mutation_witness :
    ({ SpamDetector.init with enabled := false } : SpamDetector).enabled = false ∧
      is_spam simZero { SpamDetector.init with enabled := false } 7 1 "x" false false =
        (Decision.allow, { SpamDetector.init with enabled := false }) ∧
      is_spam simZero SpamDetector.init 7 1 "x" true true =
        (Decision.allow, SpamDetector.init) := by
  refine ⟨rfl, ?_, ?_⟩
  · exact disabled_or_whitelisted_allows_without_mutation simZero _ 7 1 "x" false false
      (Or.inl rfl)
  · exact disabled_or_whitelisted_allows_without_mutation simZero _ 7 1 "x" true true
      (Or.inr rfl)

/-! ## Reward-interval state machine (`core/event_manager.py`)

Storage persistence (`_save_state` / `_save_config`) is modelled by the
`saved_state` / `saved_config` fields: the documents the storage
collaborator would hold.  `random.randint` is modelled by an injected
stream of raw draws reduced into the inclusive range `[lo, hi]`. -/

/-- `self.mode`: "random" or "fixed". -/
inductive EvMode where
  | random : EvMode
  | fixed : EvMode
deriving DecidableEq

/-- The persisted `interval` configuration document:
(mode, min, max, loop, active). -/
structure EvConfig where
  mode : EvMode
  min : ℕ
  max : ℕ
  loop : Bool
  active : Bool
deriving DecidableEq

/-- `EventManager` state.  `rng`/`rngIdx` model the external
`random.randint` call stream. -/
structure EventManager where
  mode : EvMode
  min_target : ℕ
  max_target : ℕ
  target_count : ℕ
  current_count : ℕ
  active : Bool
  loop : Bool
  paused_until : ℚ
  rng : ℕ → ℕ
  rngIdx : ℕ
  saved_state : ℕ × ℕ
  saved_config : EvConfig

/-- Models `random.randint(lo, hi)`: an arbitrary raw draw reduced into
the inclusive range `[lo, hi]` (for `lo ≤ hi`). -/
def pyRandint (lo hi r : ℕ) : ℕ :=
  lo + r % (hi + 1 - lo)

theorem pyRandint_mem (lo hi r : ℕ) (h : lo ≤ hi) :
    lo ≤ pyRandint lo hi r ∧ pyRandint lo hi r ≤ hi := by
  unfold pyRandint
  have hpos : 0 < hi + 1 - lo := by omega
  have := Nat.mod_lt r hpos
  omega

/-- `EventManager._generate_random_target`, consuming one draw. -/
def _generate_random_target (e : EventManager) : ℕ × EventManager :=
  (pyRandint e.min_target e.max_target (e.rng e.rngIdx), { e with rngIdx := e.rngIdx + 1 })

/-- `EventManager._save_state`: persists `(current_count, target_count)`
when forced or every 10th message. -/
def _save_state (e : EventManager) (force : Bool) : EventManager :=
  if force || e.current_count % 10 == 0 then
    { e with saved_state := (e.current_count, e.target_count) }
  else e

/-- `EventManager._save_config`. -/
def _save_config (e : EventManager) : EventManager :=
  { e with saved_config := ⟨e.mode, e.min_target, e.max_target, e.loop, e.active⟩ }

/-- `EventManager.is_paused` at an explicit `time.time()` value. -/
def ev_is_paused (e : EventManager) (now : ℚ) : Bool :=
  decide (now < e.paused_until)

/-- `EventManager.process_message`: the return flag is `triggered`. -/
def process_message (e : EventManager) (now : ℚ) : Bool × EventManager :=
  if !e.active then (false, e)
  else if ev_is_paused e now then (false, e)
  else
    let e1 := { e with current_count := e.current_count + 1 }
    let e2 := _save_state e1 false
    if e2.target_count ≤ e2.current_count then
      let e3 := { e2 with current_count := 0 }
      let e4 :=
        if !e3.loop then _save_config { e3 with active := false }
        else if e3.mode = EvMode.random then
          let g := _generate_random_target e3
          { g.2 with target_count := g.1 }
        else e3
      (true, _save_state e4 true)
    else (false, e2)

/-- Run `process_message` over a list of call times, collecting the
`triggered` flags. -/
def runEv (e : EventManager) : List ℚ → List Bool × EventManager
  | [] => ([], e)
  | t :: rest =>
      let r := process_message e t
      let rr := runEv r.2 rest
      (r.1 :: rr.1, rr.2)

theorem runEv_nil (e : EventManager) : runEv e [] = ([], e) := rfl

theorem runEv_cons (e : EventManager) (t : ℚ) (rest : List ℚ) :
    runEv e (t :: rest) =
      ((process_message e t).1 :: (runEv (process_message e t).2 rest).1,
       (runEv (process_message e t).2 rest).2) := rfl

theorem runEv_append (l1 l2 : List ℚ) : ∀ e : EventManager,
    runEv e (l1 ++ l2) =
      ((runEv e l1).1 ++ (runEv (runEv e l1).2 l2).1, (runEv (runEv e l1).2 l2).2) := by
  induction l1 with
  | nil => intro e; simp [runEv_nil]
  | cons t rest ih => intro e; simp [runEv_cons, ih]

@[simp] theorem _save_state_mode (e : EventManager) (b : Bool) :
    (_save_state e b).mode = e.mode := by unfold _save_state; split <;> rfl

@[simp] theorem _save_state_min (e : EventManager) (b : Bool) :
    (_save_state e b).min_target = e.min_target := by unfold _save_state; split <;> rfl

@[simp] theorem _save_state_max (e : EventManager) (b : Bool) :
    (_save_state e b).max_target = e.max_target := by unfold _save_state; split <;> rfl

@[simp] theorem _save_state_target (e : EventManager) (b : Bool) :
    (_save_state e b).target_count = e.target_count := by unfold _save_state; split <;> rfl

@[simp] theorem _save_state_current (e : EventManager) (b : Bool) :
    (_save_state e b).current_count = e.current_count := by unfold _save_state; split <;> rfl

@[simp] theorem _save_state_active (e : EventManager) (b : Bool) :
    (_save_state e b).active = e.active := by unfold _save_state; split <;> rfl

@[simp] theorem _save_state_loop (e : EventManager) (b : Bool) :
    (_save_state e b).loop = e.loop := by unfold _save_state; split <;> rfl

@[simp] theorem _save_state_paused (e : EventManager) (b : Bool) :
    (_save_state e b).paused_until = e.paused_until := by unfold _save_state; split <;> rfl

@[simp] theorem _save_state_rng (e : EventManager) (b : Bool) :
    (_save_state e b).rng = e.rng := by unfold _save_state; split <;> rfl

@[simp] theorem _save_state_rngIdx (e : EventManager) (b : Bool) :
    (_save_state e b).rngIdx = e.rngIdx := by unfold _save_state; split <;> rfl

theorem _save_state_as_update (e : EventManager) (b : Bool) :
    _save_state e b = { e with saved_state := (_save_state e b).saved_state } := by
  unfold _save_state; split <;> rfl

theorem _save_state_force (e : EventManager) :
    _save_state e true = { e with saved_state := (e.current_count, e.target_count) } := by
  unfold _save_state; rfl

/-- An inactive machine returns false and performs no mutation. -/
theorem process_message_inactive (e : EventManager) (now : ℚ) (h : e.active = false) :
    process_message e now = (false, e) := by
  simp [process_message, h]

/-- A paused machine returns false and performs no mutation. -/
theorem process_message_paused (e : EventManager) (now : ℚ) (h : now < e.paused_until) :
    process_message e now = (false, e) := by
  cases hact : e.active
  · simp [process_message, hact]
  · simp [process_message, hact, ev_is_paused, h]

/-- A counted message that does not reach the target: `current_count`
is incremented, everything except the persistence buffer is unchanged. -/
theorem process_message_no_trigger (e : EventManager) (now : ℚ) (hact : e.active = true)
    (hp : e.paused_until ≤ now) (hlt : e.current_count + 1 < e.target_count) :
    ∃ ss, process_message e now =
      (false, { e with current_count := e.current_count + 1, saved_state := ss }) := by
  refine ⟨(_save_state { e with current_count := e.current_count + 1 } false).saved_state, ?_⟩
  simp only [process_message, hact, Bool.not_true, Bool.false_eq_true, if_false,
    ev_is_paused, decide_eq_false (not_lt.mpr hp)]
  rw [if_neg (by simp; omega)]
  rw [_save_state_as_update]

/-- A counted message that reaches the target: returns true, resets
`current_count`, deactivates when `loop` is off, and regenerates the
target exactly when `loop ∧ mode = random`; the trigger state is
force-persisted. -/
theorem process_message_trigger (e : EventManager) (now : ℚ) (hact : e.active = true)
    (hp : e.paused_until ≤ now) (hge : e.target_count ≤ e.current_count + 1) :
    (process_message e now).1 = true ∧
    (process_message e now).2.current_count = 0 ∧
    (process_message e now).2.active = e.loop ∧
    (process_message e now).2.loop = e.loop ∧
    (process_message e now).2.mode = e.mode ∧
    (process_message e now).2.paused_until = e.paused_until ∧
    (process_message e now).2.min_target = e.min_target ∧
    (process_message e now).2.max_target = e.max_target ∧
    (process_message e now).2.rng = e.rng ∧
    (process_message e now).2.target_count =
      (if e.loop = true ∧ e.mode = EvMode.random then
        pyRandint e.min_target e.max_target (e.rng e.rngIdx) else e.target_count) ∧
    (process_message e now).2.saved_state = (0, (process_message e now).2.target_count) := by
  simp only [process_message, hact, Bool.not_true, Bool.false_eq_true, if_false,
    ev_is_paused, decide_eq_false (not_lt.mpr hp)]
  rw [if_pos (by simp; omega)]
  cases hloop : e.loop
  · simp [_save_state_force, _save_config, _generate_random_target]
  · cases hmode : e.mode
    · simp [_save_state_force, _save_config, _generate_random_target]
    · simp [_save_state_force, _save_config, _generate_random_target, hmode]

/-- A run of calls that stays short of the target: every call returns
false and only `current_count` advances (plus the persistence buffer). -/
theorem runEv_no_trigger (ts : List ℚ) : ∀ e : EventManager, e.active = true →
    (∀ t ∈ ts, e.paused_until ≤ t) → e.current_count + ts.length < e.target_count →
    (runEv e ts).1 = List.replicate ts.length false ∧
    ∃ ss, (runEv e ts).2 =
      { e with current_count := e.current_count + ts.length, saved_state := ss } := by
  induction ts with
  | nil =>
      intro e hact hp hlt
      exact ⟨rfl, e.saved_state, by simp [runEv_nil]⟩
  | cons t rest ih =>
      intro e hact hp hlt
      obtain ⟨ss1, hstep⟩ := process_message_no_trigger e t hact
        (hp t (List.mem_cons_self t rest)) (by simp at hlt; omega)
      set e2 : EventManager :=
        { e with current_count := e.current_count + 1, saved_state := ss1 } with he2
      obtain ⟨hdec, ss2, hstate⟩ := ih e2 hact
        (fun x hx => hp x (List.mem_cons_of_mem t hx))
        (by simp [he2]; simp at hlt; omega)
      refine ⟨?_, ss2, ?_⟩
      · simp [runEv_cons, hstep, hdec, List.replicate_succ]
      · simp only [runEv_cons, hstep, hstate]
        simp [he2]
        omega

/-- Exactly `target_count` calls: the first `target − 1` return false,
the `target`-th returns true, `current_count` is 0 afterwards, the
machine stays active exactly when looping, and the target is
regenerated exactly when `loop ∧ mode = random`. -/
theorem runEv_hits_target (e : EventManager) (f : ℕ → ℚ) (T : ℕ) (hT : 1 ≤ T)
    (hact : e.active = true) (hcur : e.current_count = 0) (htar : e.target_count = T)
    (hp : ∀ i, e.paused_until ≤ f i) :
    (runEv e ((List.range T).map f)).1 = List.replicate (T - 1) false ++ [true] ∧
    (runEv e ((List.range T).map f)).2.current_count = 0 ∧
    (runEv e ((List.range T).map f)).2.active = e.loop ∧
    (runEv e ((List.range T).map f)).2.loop = e.loop ∧
    (runEv e ((List.range T).map f)).2.target_count =
      (if e.loop = true ∧ e.mode = EvMode.random then
        pyRandint e.min_target e.max_target (e.rng e.rngIdx) else T) := by
  obtain ⟨n, rfl⟩ : ∃ n, T = n + 1 := ⟨T - 1, by omega⟩
  rw [List.range_succ, List.map_append]
  obtain ⟨hdec, ss, hstate⟩ := runEv_no_trigger ((List.range n).map f) e hact
    (by intro x hx; obtain ⟨i, hi2, rfl⟩ := List.mem_map.mp hx; exact hp i)
    (by simp [hcur, htar])
  set e1 : EventManager :=
    { e with current_count := e.current_count + ((List.range n).map f).length,
             saved_state := ss } with he1
  have h1cc : e1.current_count = n := by simp [he1, hcur]
  have htrig := process_message_trigger e1 (f n) hact (hp n)
    (by rw [h1cc]; show e.target_count ≤ n + 1; omega)
  rw [runEv_append, hstate, hdec]
  refine ⟨?_, ?_, ?_, ?_, ?_⟩
  · simp only [runEv_cons, runEv_nil, List.map_cons, List.map_nil]
    rw [htrig.1]
    simp
  · simp only [runEv_cons, runEv_nil, List.map_cons, List.map_nil]
    exact htrig.2.1
  · simp only [runEv_cons, runEv_nil, List.map_cons, List.map_nil]
    exact htrig.2.2.1
  · simp only [runEv_cons, runEv_nil, List.map_cons, List.map_nil]
    exact htrig.2.2.2.1
  · simp only [runEv_cons, runEv_nil, List.map_cons, List.map_nil]
    rw [htrig.2.2.2.2.2.2.2.2.2.1]
    simp [he1, htar]

/-! ### Claim C2: exact trigger cadence in fixed mode -/

/-- C2: in fixed mode, active and unpaused with `target = 100` from
`current = 0`, 100 calls yield `triggered = true` on (and only on) the
100th call with `current = 0` immediately after; with `target = 5` and
`loop = false` the 5th call returns true and deactivates the machine, so
a 6th call returns false and performs no mutation. -/
theorem fixed_target_trigger_cadence :
    (∀ (e : EventManager) (f : ℕ → ℚ), e.mode = EvMode.fixed → e.active = true →
      e.current_count = 0 → e.target_count = 100 → (∀ i, e.paused_until ≤ f i) →
      (runEv e ((List.range 100).map f)).1 = List.replicate 99 false ++ [true] ∧
      (runEv e ((List.range 100).map f)).2.current_count = 0) ∧
    (∀ (e : EventManager) (f : ℕ → ℚ), e.mode = EvMode.fixed → e.active = true →
      e.current_count = 0 → e.target_count = 5 → e.loop = false →
      (∀ i, e.paused_until ≤ f i) →
      (runEv e ((List.range 5).map f)).1 = List.replicate 4 false ++ [true] ∧
      (runEv e ((List.range 5).map f)).2.active = false ∧
      ∀ t6 : ℚ, process_message (runEv e ((List.range 5).map f)).2 t6 =
        (false, (runEv e ((List.range 5).map f)).2)) := by
  constructor
  · intro e f hmode hact hcur htar hp
    have h := runEv_hits_target e f 100 (by omega) hact hcur htar hp
    exact ⟨by rw [h.1], h.2.1⟩
  · intro e f hmode hact hcur htar hloop hp
    have h := runEv_hits_target e f 5 (by omega) hact hcur htar hp
    have hinact : (runEv e ((List.range 5).map f)).2.active = false := by
      rw [h.2.2.1, hloop]
    exact ⟨by rw [h.1], hinact,
      fun t6 => process_message_inactive _ t6 hinact⟩

/-- Event machine used in the C2 witness: fixed mode, given target,
non-looping, never paused. -/
def fixedEvent (target : ℕ) : EventManager :=
  ⟨EvMode.fixed, 100, 250, target, 0, true, false, 0, fun _ => 0, 0, (0, target),
   ⟨EvMode.fixed, 100, 250, false, true⟩⟩

/-- C2 (witness): both scenarios at concrete machines, with all calls at
time 0 and the 6th call at time 3. -/
theorem fixed_target_trigger_cadence_witness :
    ((fixedEvent 100).active = true ∧ (fixedEvent 5).target_count = 5) ∧
      (runEv (fixedEvent 100) ((List.range 100).map fun _ => 0)).1 =
        List.replicate 99 false ++ [true] ∧
      (runEv (fixedEvent 100) ((List.range 100).map fun _ => 0)).2.current_count = 0 ∧
      (runEv (fixedEvent 5) ((List.range 5).map fun _ => 0)).1 =
        List.replicate 4 false ++ [true] ∧
      (runEv (fixedEvent 5) ((List.range 5).map fun _ => 0)).2.active = false ∧
      process_message (runEv (fixedEvent 5) ((List.range 5).map fun _ => 0)).2 3 =
        (false, (runEv (fixedEvent 5) ((List.range 5).map fun _ => 0)).2) := by
  have h1 := fixed_target_trigger_cadence.1 (fixedEvent 100) (fun _ => 0)
    rfl rfl rfl rfl (fun _ => le_refl 0)
  have h2 := fixed_target_trigger_cadence.2 (fixedEvent 5) (fun _ => 0)
    rfl rfl rfl rfl rfl (fun _ => le_refl 0)
  exact ⟨⟨rfl, rfl⟩, h1.1, h1.2, h2.1, h2.2.1, h2.2.2 3⟩

/-! ### Claim C7: when the target regenerates -/

/-- C7: across any single `process_message` call, the target regenerates
exactly when the call triggers with `loop = true ∧ mode = random` — a
fixed-mode looping trigger keeps the target and stays active, a
random-mode looping trigger redraws it inside `[min, max]` (inclusive),
a non-looping trigger keeps the target and deactivates, and a
non-triggering call never touches the target. -/
theorem target_regenerates_only_in_random_loop (e : EventManager) (now : ℚ) :
    ((process_message e now).1 = true → e.loop = true → e.mode = EvMode.fixed →
      (process_message e now).2.target_count = e.target_count ∧
      (process_message e now).2.active = true) ∧
    ((process_message e now).1 = true → e.loop = true → e.mode = EvMode.random →
      (process_message e now).2.target_count =
        pyRandint e.min_target e.max_target (e.rng e.rngIdx) ∧
      (e.min_target ≤ e.max_target →
        e.min_target ≤ (process_message e now).2.target_count ∧
        (process_message e now).2.target_count ≤ e.max_target)) ∧
    ((process_message e now).1 = true → e.loop = false →
      (process_message e now).2.active = false ∧
      (process_message e now).2.target_count = e.target_count) ∧
    ((process_message e now).1 = false →
      (process_message e now).2.target_count = e.target_count) := by
  by_cases hact : e.active = true
  · by_cases hpau : now < e.paused_until
    · have hstep := process_message_paused e now hpau
      refine ⟨?_, ?_, ?_, ?_⟩ <;> rw [hstep] <;> intro h1 <;> first | rfl | cases h1
    · by_cases htrig : e.target_count ≤ e.current_count + 1
      · have h := process_message_trigger e now hact (not_lt.mp hpau) htrig
        have htc := h.2.2.2.2.2.2.2.2.2.1
        refine ⟨?_, ?_, ?_, ?_⟩
        · intro h1 hloop hmode
          rw [htc, if_neg (by rw [hmode]; simp), h.2.2.1, hloop]
          exact ⟨rfl, rfl⟩
        · intro h1 hloop hmode
          have hdraw : (process_message e now).2.target_count =
              pyRandint e.min_target e.max_target (e.rng e.rngIdx) := by
            rw [htc, if_pos ⟨hloop, hmode⟩]
          refine ⟨hdraw, fun hmm => ?_⟩
          rw [hdraw]
          exact pyRandint_mem e.min_target e.max_target (e.rng e.rngIdx) hmm
        · intro h1 hloop
          rw [htc, if_neg (by rw [hloop]; simp), h.2.2.1, hloop]
          exact ⟨rfl, rfl⟩
        · intro h1
          rw [h.1] at h1
          cases h1
      · obtain ⟨ss, hstep⟩ := process_message_no_trigger e now hact (not_lt.mp hpau)
          (by omega)
        refine ⟨?_, ?_, ?_, ?_⟩ <;> rw [hstep] <;> intro h1 <;> first | rfl | cases h1
  · have hstep := process_message_inactive e now (by simpa using hact)
    refine ⟨?_, ?_, ?_, ?_⟩ <;> rw [hstep] <;> intro h1 <;> first | rfl | cases h1

/-- Event machine used in the C7 witness (fixed mode, looping, one
message short of the target). -/
def fixedLoopEvent : EventManager :=
  ⟨EvMode.fixed, 10, 20, 3, 2, true, true, 0, fun _ => 7, 0, (0, 0),
   ⟨EvMode.fixed, 10, 20, true, true⟩⟩

/-- Event machine used in the C7 witness (random mode, looping, one
message short of the target; next raw draw 7). -/
def randomLoopEvent : EventManager :=
  ⟨EvMode.random, 10, 20, 3, 2, true, true, 0, fun _ => 7, 0, (0, 0),
   ⟨EvMode.random, 10, 20, true, true⟩⟩

/-- C7 (witness): a fixed-mode looping trigger keeps target 3 and stays
active; a random-mode looping trigger redraws `pyRandint 10 20 7 = 17`,
inside `[10, 20]`. -/
theorem target_regenerates_only_in_random_loop_witness :
    ((process_message fixedLoopEvent 1).1 = true ∧
        (process_message randomLoopEvent 1).1 = true) ∧
      (process_message fixedLoopEvent 1).2.target_count = fixedLoopEvent.target_count ∧
      (process_message fixedLoopEvent 1).2.active = true ∧
      (process_message randomLoopEvent 1).2.target_count =
        pyRandint randomLoopEvent.min_target randomLoopEvent.max_target
          (randomLoopEvent.rng randomLoopEvent.rngIdx) ∧
      randomLoopEvent.min_target ≤ (process_message randomLoopEvent 1).2.target_count ∧
      (process_message randomLoopEvent 1).2.target_count ≤ randomLoopEvent.max_target := by
  have ht1 : (process_message fixedLoopEvent 1).1 = true := by with_unfolding_all decide
  have ht2 : (process_message randomLoopEvent 1).1 = true := by with_unfolding_all decide
  have h1 := (target_regenerates_only_in_random_loop fixedLoopEvent 1).1 ht1 rfl rfl
  have h2 := (target_regenerates_only_in_random_loop randomLoopEvent 1).2.1 ht2 rfl rfl
  exact ⟨⟨ht1, ht2⟩, h1.1, h1.2, h2.1, (h2.2 (by decide)).1, (h2.2 (by decide)).2⟩

/-! ## Milestone tracker (`core/milestones.py`)

The `config['milestones']` section is `MsConf`; `save_callback` (the
persisted copy of the config) is modelled by the `persisted` field of
`MsSystem`, and a process restart reloads the in-memory config from it. -/

/-- One configured milestone: `{duration_hours, multiplier, jackpot_chance}`. -/
structure MsDetails where
  duration_hours : ℚ
  multiplier : ℚ
  jackpot_chance : ℚ
deriving DecidableEq

/-- The `active_event` slot. -/
structure ActiveEvent where
  active : Bool
  end_time : ℚ
  milestone : ℕ
  multiplier : ℚ
  jackpot_chance : ℚ
deriving DecidableEq

/-- The `milestones` config section: threshold table (keyed by the
member-count threshold), the single active-event slot and the
`last_triggered` watermark. -/
structure MsConf where
  enabled : Bool
  update_interval_posts : ℕ
  events : List (ℕ × MsDetails)
  active_event : ActiveEvent
  last_triggered : ℕ
deriving DecidableEq

/-- `sorted([int(k) for k in events.keys()])`. -/
def sortedKeys (evs : List (ℕ × MsDetails)) : List ℕ :=
  List.insertionSort (· ≤ ·) (evs.map Prod.fst)

/-- `MilestoneManager.check_milestone`: pure read — scans thresholds
ascending and fires the first with `count ≥ m` and `m > last_triggered`,
unless an event is already active. -/
def check_milestone (conf : MsConf) (count : ℕ) : Option ℕ :=
  if conf.active_event.active then none
  else (sortedKeys conf.events).find?
    (fun m => decide (m ≤ count) && decide (conf.last_triggered < m))

/-- `MilestoneManager.activate_event`: looks the milestone up in the
table (`conf['events'][str(milestone)]` raises on a missing key, hence
`Option`), fills the active slot, sets `last_triggered` and persists. -/
def activate_event (conf : MsConf) (now : ℚ) (m : ℕ) : Option (MsConf × MsDetails) :=
  match conf.events.find? (fun p => p.1 == m) with
  | none => none
  | some p => some
      ({ conf with
          active_event :=
            ⟨true, now + p.2.duration_hours * 3600, m, p.2.multiplier, p.2.jackpot_chance⟩
          last_triggered := m }, p.2)

/-- `MilestoneManager.check_expiry`: resets the slot to the neutral
shape and persists when the active window has passed its end time. -/
def check_expiry (conf : MsConf) (now : ℚ) : Bool × MsConf :=
  if conf.active_event.active then
    if conf.active_event.end_time < now then
      (true, { conf with active_event := ⟨false, 0, 0, 1, 5⟩ })
    else (false, conf)
  else (false, conf)

/-- In-memory config plus the persisted copy written by `save_callback`. -/
structure MsSystem where
  conf : MsConf
  persisted : MsConf
deriving DecidableEq

/-- One interaction with the milestone manager: a `check_milestone`
call, an `activate_event` call, a `check_expiry` call, or a process
restart reloading the config from the persisted copy. -/
inductive MsOp where
  | check (count : ℕ) : MsOp
  | activate (now : ℚ) (m : ℕ) : MsOp
  | expire (now : ℚ) : MsOp
  | restart : MsOp

/-- Effect of one interaction; the second component is the threshold a
`check` reported as triggered. -/
def msStep (s : MsSystem) : MsOp → MsSystem × Option ℕ
  | MsOp.check c => (s, check_milestone s.conf c)
  | MsOp.activate now m =>
      match activate_event s.conf now m with
      | none => (s, none)
      | some p => (⟨p.1, p.1⟩, none)
  | MsOp.expire now =>
      let r := check_expiry s.conf now
      if r.1 then (⟨r.2, r.2⟩, none) else ({ s with conf := r.2 }, none)
  | MsOp.restart => (⟨s.persisted, s.persisted⟩, none)

/-- Run a sequence of interactions, collecting every triggered
threshold reported by the checks. -/
def msRun (s : MsSystem) : List MsOp → MsSystem × List ℕ
  | [] => (s, [])
  | op :: rest =>
      let r := msStep s op
      let rr := msRun r.1 rest
      (rr.1, r.2.toList ++ rr.2)

/-- The caller's protocol (as in `main.py`): every `check` that reports
a triggered threshold is immediately followed by `activate` of that
threshold; expiries and restarts may happen anywhere. -/
inductive MsProtocol : MsSystem → List MsOp → Prop where
  | nil (s : MsSystem) : MsProtocol s []
  | check_none (s : MsSystem) (c : ℕ) (rest : List MsOp) :
      check_milestone s.conf c = none → MsProtocol s rest →
      MsProtocol s (MsOp.check c :: rest)
  | check_fire (s : MsSystem) (c m : ℕ) (now : ℚ) (rest : List MsOp) :
      check_milestone s.conf c = some m →
      MsProtocol (msStep s (MsOp.activate now m)).1 rest →
      MsProtocol s (MsOp.check c :: MsOp.activate now m :: rest)
  | expire (s : MsSystem) (now : ℚ) (rest : List MsOp) :
      MsProtocol (msStep s (MsOp.expire now)).1 rest →
      MsProtocol s (MsOp.expire now :: rest)
  | restart (s : MsSystem) (rest : List MsOp) :
      MsProtocol (msStep s MsOp.restart).1 rest →
      MsProtocol s (MsOp.restart :: rest)

/-- A triggered threshold is above the watermark, within the count, and
present in the threshold table. -/
theorem check_milestone_some (conf : MsConf) (c m : ℕ)
    (h : check_milestone conf c = some m) :
    conf.last_triggered < m ∧ m ≤ c ∧ m ∈ conf.events.map Prod.fst := by
  unfold check_milestone at h
  by_cases hac : conf.active_event.active
  · rw [if_pos hac] at h; cases h
  · rw [if_neg hac] at h
    have hp := List.find?_some h
    have hmem := List.mem_of_find?_eq_some h
    simp at hp
    refine ⟨hp.2, hp.1, ?_⟩
    have hperm := List.perm_insertionSort (α := ℕ) (· ≤ ·) (conf.events.map Prod.fst)
    exact hperm.mem_iff.mp hmem

/-- A threshold present in the table can be activated, and activation
sets the watermark to it, marks the slot active, and persists. -/
theorem activate_event_of_mem (conf : MsConf) (now : ℚ) (m : ℕ)
    (h : m ∈ conf.events.map Prod.fst) :
    ∃ c2 d, activate_event conf now m = some (c2, d) ∧
      c2.last_triggered = m ∧ c2.active_event.active = true ∧ c2.events = conf.events := by
  have : ∃ p, p ∈ conf.events ∧ ((fun p : ℕ × MsDetails => p.1 == m) p) = true := by
    obtain ⟨p, hp, hfst⟩ := List.mem_map.mp h
    exact ⟨p, hp, by simp [hfst]⟩
  have hsome : (conf.events.find? (fun p => p.1 == m)).isSome := by
    rw [List.find?_isSome]
    simpa using this
  obtain ⟨p, hfind⟩ := Option.isSome_iff_exists.mp hsome
  refine ⟨{ conf with
      active_event :=
        ⟨true, now + p.2.duration_hours * 3600, m, p.2.multiplier, p.2.jackpot_chance⟩
      last_triggered := m }, p.2, ?_, rfl, rfl, rfl⟩
  unfold activate_event
  rw [hfind]

/-- An `expire` interaction keeps the persistence invariant and never
moves the watermark. -/
theorem msStep_expire_facts (s : MsSystem) (now : ℚ) (hinv : s.persisted = s.conf) :
    ((msStep s (MsOp.expire now)).1).persisted = ((msStep s (MsOp.expire now)).1).conf ∧
    ((msStep s (MsOp.expire now)).1).conf.last_triggered = s.conf.last_triggered := by
  simp only [msStep, check_expiry]
  by_cases hac : s.conf.active_event.active
  · by_cases hend : s.conf.active_event.end_time < now
    · simp [hac, hend]
    · simp [hac, hend, hinv]
  · simp [hac, hinv]

/-- Along any protocol trace starting with the persisted copy in sync,
the reported thresholds are strictly increasing and all above the
starting watermark. -/
theorem msRun_protocol (s : MsSystem) (ops : List MsOp) (hp : MsProtocol s ops) :
    s.persisted = s.conf →
    ((msRun s ops).2).Pairwise (· < ·) ∧
    ∀ m ∈ (msRun s ops).2, s.conf.last_triggered < m := by
  induction hp with
  | nil s => intro hinv; simp [msRun]
  | check_none s c rest hc hrest ih =>
      intro hinv
      have h := ih hinv
      simpa [msRun, msStep, hc] using h
  | check_fire s c m now rest hc hrest ih =>
      intro hinv
      obtain ⟨hlast, hle, hmem⟩ := check_milestone_some s.conf c m hc
      obtain ⟨c2, d, hact, hc2last, hc2active, hc2events⟩ :=
        activate_event_of_mem s.conf now m hmem
      have hstate : (msStep s (MsOp.activate now m)).1 = ⟨c2, c2⟩ := by
        simp [msStep, hact]
      have h := ih (by rw [hstate])
      rw [hstate] at h
      have houts : (msRun s (MsOp.check c :: MsOp.activate now m :: rest)).2 =
          m :: (msRun (⟨c2, c2⟩ : MsSystem) rest).2 := by
        simp [msRun, msStep, hc, hact]
      rw [houts]
      have hgt : ∀ x ∈ (msRun (⟨c2, c2⟩ : MsSystem) rest).2, m < x := by
        intro x hx
        have := h.2 x hx
        rw [hc2last] at this
        exact this
      exact ⟨List.Pairwise.cons hgt h.1,
        fun x hx => by
          rcases List.mem_cons.mp hx with h1 | h1
          · rw [h1]; exact hlast
          · exact lt_trans hlast (hgt x h1)⟩
  | expire s now rest hrest ih =>
      intro hinv
      obtain ⟨hinv2, hlast2⟩ := msStep_expire_facts s now hinv
      have h := ih hinv2
      have houts : (msRun s (MsOp.expire now :: rest)).2 =
          (msRun (msStep s (MsOp.expire now)).1 rest).2 := by
        simp only [msRun]
        have : (msStep s (MsOp.expire now)).2 = none := by
          simp only [msStep]
          split <;> rfl
        rw [this]
        rfl
      rw [houts, ← hlast2]
      exact h
  | restart s rest hrest ih =>
      intro hinv
      have hstate : (msStep s MsOp.restart).1 = ⟨s.conf, s.conf⟩ := by
        simp [msStep, hinv]
      have h := ih (by rw [hstate])
      rw [hstate] at h
      have houts : (msRun s (MsOp.restart :: rest)).2 =
          (msRun (⟨s.conf, s.conf⟩ : MsSystem) rest).2 := by
        simp [msRun, msStep, hinv]
      rw [houts]
      exact h

/-- Milestone config used for C4: one 100-member threshold, nothing
triggered yet, no active event. -/
def msDemoConf : MsConf := ⟨true, 50, [(100, ⟨1, 2, 5⟩)], ⟨false, 0, 0, 1, 5⟩, 0⟩

/-- Milestone system for C4, persisted copy in sync. -/
def msDemoSys : MsSystem := ⟨msDemoConf, msDemoConf⟩

/-- C4 (counterexample): `check_milestone` mutates nothing, so two bare
`check` interactions with no `activate` between them both report
threshold 100 as triggered — over an arbitrary interaction sequence a
threshold can be reported more than once. -/
theorem check_milestone_refires_without_activate :
    (msRun msDemoSys [MsOp.check 150, MsOp.check 150]).2 = [100, 100] := by
  with_unfolding_all decide

/-- C4 (amended): under the caller's protocol — every check that
reports a threshold is immediately followed by `activate` of it, which
sets and persists the `last_triggered` watermark — every threshold is
reported at most once across the whole trace, including `check_expiry`
calls and restarts that reload the config from the persisted copy; and
a threshold at or below the watermark is never reported at all. -/
theorem milestone_fires_at_most_once_under_protocol :
    (∀ (s : MsSystem) (ops : List MsOp), MsProtocol s ops → s.persisted = s.conf →
      ∀ m : ℕ, ((msRun s ops).2).count m ≤ 1) ∧
    (∀ (conf : MsConf) (c m : ℕ), m ≤ conf.last_triggered →
      check_milestone conf c ≠ some m) := by
  constructor
  · intro s ops hp hinv m
    have h := (msRun_protocol s ops hp hinv).1
    have hnodup : ((msRun s ops).2).Nodup := h.imp (fun hlt => ne_of_lt hlt)
    exact List.nodup_iff_count_le_one.mp hnodup m
  · intro conf c m hle h
    have := (check_milestone_some conf c m h).1
    omega

/-- C4 (witness): the protocol trace check-150 → activate-100 →
check-150 (with a restart-free rerun of the check) reports threshold 100
exactly once. -/
theorem milestone_fires_at_most_once_under_protocol_witness :
    MsProtocol msDemoSys [MsOp.check 150, MsOp.activate 0 100, MsOp.check 150] ∧
      ((msRun msDemoSys [MsOp.check 150, MsOp.activate 0 100, MsOp.check 150]).2).count 100 ≤
        1 := by
  have hproto : MsProtocol msDemoSys
      [MsOp.check 150, MsOp.activate 0 100, MsOp.check 150] :=
    MsProtocol.check_fire msDemoSys 150 100 0 [MsOp.check 150]
      (by with_unfolding_all decide)
      (MsProtocol.check_none _ 150 [] (by with_unfolding_all decide) (MsProtocol.nil _))
  exact ⟨hproto,
    milestone_fires_at_most_once_under_protocol.1 msDemoSys _ hproto rfl 100⟩

/-! ## Write-behind queue (`core/write_queue.py`)

The buffer `self._stat_increments` is an insertion-ordered map from
`(collection, filter_key, field)` to the accumulated amount (plus the
filter document and collection stored beside it); `str(sorted(...))` is
modelled by keeping the sorted pair list itself as the key component.
A flush snapshots the buffer, clears it, and emits one `$inc` update
per buffered key. -/

/-- A buffered entry: accumulated delta plus the filter document and
collection name stored beside it by `increment_stat`. -/
structure WqEntry where
  amount : ℤ
  filter : List (String × String)
  collection : String
deriving DecidableEq

/-- Order on filter-document items, as `sorted(filter_doc.items())`
sorts pairs. -/
def pairLe (a b : String × String) : Prop :=
  a.1 < b.1 ∨ (a.1 = b.1 ∧ a.2 ≤ b.2)

instance pairLeDec : DecidableRel pairLe := fun a b =>
  inferInstanceAs (Decidable (a.1 < b.1 ∨ (a.1 = b.1 ∧ a.2 ≤ b.2)))

/-- `str(sorted(filter_doc.items()))`: the hashable key component. -/
def filterKey (fd : List (String × String)) : List (String × String) :=
  List.insertionSort pairLe fd

/-- The buffer key `(collection, filter_key, field)`. -/
def wqKey (coll : String) (fd : List (String × String)) (field : String) :
    String × List (String × String) × String :=
  (coll, filterKey fd, field)

/-- The buffer: an insertion-ordered association list (a `defaultdict`
keeps insertion order; a fresh key is appended at the end). -/
abbrev WqBuffer := List ((String × List (String × String) × String) × WqEntry)

/-- Update-or-append at a key, merging amounts by addition. -/
def wqUpd (k : String × List (String × String) × String) (coll : String)
    (fd : List (String × String)) (amount : ℤ) : WqBuffer → WqBuffer
  | [] => [(k, ⟨amount, fd, coll⟩)]
  | (k2, e) :: rest =>
      if k2 = k then (k2, ⟨e.amount + amount, fd, coll⟩) :: rest
      else (k2, e) :: wqUpd k coll fd amount rest

/-- `WriteQueue.increment_stat` (the buffer mutation under the lock). -/
def increment_stat (b : WqBuffer) (coll : String) (fd : List (String × String))
    (field : String) (amount : ℤ) : WqBuffer :=
  wqUpd (wqKey coll fd field) coll fd amount b

/-- One `UpdateOne(filter, {$inc: {field: amount}})` targeted at a
collection. -/
structure WqOp where
  collection : String
  filter : List (String × String)
  field : String
  amount : ℤ
deriving DecidableEq

/-- The batched update operations a flush emits: one per buffered key
(the per-collection grouping only partitions this list). -/
def flushOps (b : WqBuffer) : List WqOp :=
  b.map (fun p => ⟨p.2.collection, p.2.filter, p.1.2.2, p.2.amount⟩)

/-- `WriteQueue._flush`: empty buffer returns early; otherwise snapshot,
clear, and emit the batched updates from the snapshot. -/
def wqFlush (b : WqBuffer) : WqBuffer × List WqOp :=
  if b = [] then (b, []) else ([], flushOps b)

/-- The buffer key an emitted update is aimed at. -/
def wqOpKey (op : WqOp) : String × List (String × String) × String :=
  (op.collection, filterKey op.filter, op.field)

/-- Buffer lookup by key. -/
def wqLookup (b : WqBuffer) (k : String × List (String × String) × String) :
    Option WqEntry :=
  (b.find? (fun p => decide (p.1 = k))).map Prod.snd

/-- `n` buffered `+1` increments for one `(collection, filter, field)`. -/
def iterIncr (coll : String) (fd : List (String × String)) (field : String) :
    ℕ → WqBuffer → WqBuffer
  | 0, b => b
  | n + 1, b => increment_stat (iterIncr coll fd field n b) coll fd field 1

/-- Buffer well-formedness: each entry's stored collection and filter
agree with its key (as `increment_stat` always writes them). -/
def WqWf (b : WqBuffer) : Prop :=
  ∀ p ∈ b, p.1.1 = p.2.collection ∧ p.1.2.1 = filterKey p.2.filter

theorem wqUpd_not_mem (k : String × List (String × String) × String) (coll : String)
    (fd : List (String × String)) (a : ℤ) :
    ∀ b : WqBuffer, (∀ p ∈ b, p.1 ≠ k) →
      wqUpd k coll fd a b = b ++ [(k, ⟨a, fd, coll⟩)] := by
  intro b
  induction b with
  | nil => intro h; rfl
  | cons q rest ih =>
      intro h
      obtain ⟨k2, e⟩ := q
      have hne : k2 ≠ k := h (k2, e) (List.mem_cons_self _ _)
      simp only [wqUpd, if_neg hne, List.cons_append]
      rw [ih (fun p hp => h p (List.mem_cons_of_mem _ hp))]

theorem wqUpd_append_last (k : String × List (String × String) × String) (coll : String)
    (fd : List (String × String)) (a : ℤ) (e : WqEntry) :
    ∀ b : WqBuffer, (∀ p ∈ b, p.1 ≠ k) →
      wqUpd k coll fd a (b ++ [(k, e)]) = b ++ [(k, ⟨e.amount + a, fd, coll⟩)] := by
  intro b
  induction b with
  | nil => intro h; simp [wqUpd]
  | cons q rest ih =>
      intro h
      obtain ⟨k2, e2⟩ := q
      have hne : k2 ≠ k := h (k2, e2) (List.mem_cons_self _ _)
      simp only [List.cons_append, wqUpd, if_neg hne]
      rw [List.append_eq, ih (fun p hp => h p (List.mem_cons_of_mem _ hp))]

/-- Closed form of `n ≥ 1` merged `+1` increments on a key the buffer
does not yet hold: a single appended entry with amount `n`. -/
theorem iterIncr_closed (coll : String) (fd : List (String × String)) (field : String)
    (b : WqBuffer) (hnone : ∀ p ∈ b, p.1 ≠ wqKey coll fd field) :
    ∀ n : ℕ, 1 ≤ n →
      iterIncr coll fd field n b = b ++ [(wqKey coll fd field, ⟨(n : ℤ), fd, coll⟩)] := by
  intro n
  induction n with
  | zero => intro h; omega
  | succ n ih =>
      intro h
      by_cases hn : 1 ≤ n
      · simp only [iterIncr, increment_stat, ih hn]
        rw [wqUpd_append_last _ _ _ _ _ b hnone]
        push_cast
        rfl
      · have hn0 : n = 0 := by omega
        subst hn0
        simp only [iterIncr, increment_stat]
        rw [wqUpd_not_mem _ _ _ _ b hnone]
        norm_num

theorem wqLookup_append_last (b : WqBuffer)
    (k : String × List (String × String) × String) (e : WqEntry)
    (hnone : ∀ p ∈ b, p.1 ≠ k) :
    wqLookup (b ++ [(k, e)]) k = some e := by
  induction b with
  | nil => simp [wqLookup, List.find?]
  | cons q rest ih =>
      have hne : q.1 ≠ k := hnone q (List.mem_cons_self _ _)
      simp only [wqLookup, List.cons_append, List.find?] at ih ⊢
      rw [decide_eq_false hne]
      exact ih (fun p hp => hnone p (List.mem_cons_of_mem _ hp))

theorem flushOps_filter_none (k : String × List (String × String) × String) :
    ∀ b : WqBuffer, WqWf b → (∀ p ∈ b, p.1 ≠ k) →
      (flushOps b).filter (fun op => decide (wqOpKey op = k)) = [] := by
  intro b
  induction b with
  | nil => intro hwf hnone; rfl
  | cons q rest ih =>
      intro hwf hnone
      obtain ⟨hc, hf⟩ := hwf q (List.mem_cons_self _ _)
      have hne : q.1 ≠ k := hnone q (List.mem_cons_self _ _)
      have hopkey : wqOpKey ⟨q.2.collection, q.2.filter, q.1.2.2, q.2.amount⟩ = q.1 := by
        simp only [wqOpKey, ← hc, ← hf]
      simp only [flushOps, List.map_cons, List.filter_cons]
      rw [show decide (wqOpKey ⟨q.2.collection, q.2.filter, q.1.2.2, q.2.amount⟩ = k) = false
        from decide_eq_false (by rw [hopkey]; exact hne)]
      simp only [Bool.false_eq_true, if_false]
      exact ih (fun p hp => hwf p (List.mem_cons_of_mem _ hp))
        (fun p hp => hnone p (List.mem_cons_of_mem _ hp))

/-! ### Claim C5: merged increments, one batched update, empty buffer -/

/-- C5: `n ≥ 1` buffered `+1` increments for one fresh
`(collection, filter, field)` key merge by addition into a single
buffered delta `n`; the following flush emits exactly one batched update
for that key, carrying `+n`, and leaves the buffer empty. -/
theorem increments_merge_flush_once (coll : String) (fd : List (String × String))
    (field : String) (b : WqBuffer) (n : ℕ) (hn : 1 ≤ n) (hwf : WqWf b)
    (hnone : ∀ p ∈ b, p.1 ≠ wqKey coll fd field) :
    wqLookup (iterIncr coll fd field n b) (wqKey coll fd field) =
      some ⟨(n : ℤ), fd, coll⟩ ∧
    ((wqFlush (iterIncr coll fd field n b)).2).filter
      (fun op => decide (wqOpKey op = wqKey coll fd field)) =
      [⟨coll, fd, field, (n : ℤ)⟩] ∧
    (wqFlush (iterIncr coll fd field n b)).1 = [] := by
  rw [iterIncr_closed coll fd field b hnone n hn]
  have hne : b ++ [(wqKey coll fd field, (⟨(n : ℤ), fd, coll⟩ : WqEntry))] ≠ [] := by
    simp
  refine ⟨wqLookup_append_last b _ _ hnone, ?_, ?_⟩
  · have hsplit : flushOps (b ++ [(wqKey coll fd field, (⟨(n : ℤ), fd, coll⟩ : WqEntry))]) =
        flushOps b ++ [⟨coll, fd, (wqKey coll fd field).2.2, (n : ℤ)⟩] := by
      simp [flushOps]
    simp only [wqFlush, if_neg hne]
    rw [hsplit, List.filter_append, flushOps_filter_none _ b hwf hnone]
    simp only [List.nil_append, List.filter_cons, List.filter_nil]
    rw [show decide (wqOpKey ⟨coll, fd, (wqKey coll fd field).2.2, (n : ℤ)⟩ =
        wqKey coll fd field) = true from decide_eq_true rfl]
    rfl
  · simp only [wqFlush, if_neg hne]

/-- C5 (witness): three `+1` increments for
`("users", {user_id: 1}, "messages")` on an empty buffer. -/
theorem increments_merge_flush_once_witness :
    ((1 : ℕ) ≤ 3 ∧ WqWf []) ∧
      wqLookup (iterIncr "users" [("user_id", "1")] "messages" 3 [])
        (wqKey "users" [("user_id", "1")] "messages") =
        some ⟨3, [("user_id", "1")], "users"⟩ ∧
      ((wqFlush (iterIncr "users" [("user_id", "1")] "messages" 3 [])).2).filter
        (fun op => decide (wqOpKey op = wqKey "users" [("user_id", "1")] "messages")) =
        [⟨"users", [("user_id", "1")], "messages", 3⟩] ∧
      (wqFlush (iterIncr "users" [("user_id", "1")] "messages" 3 [])).1 = [] := by
  have h := increments_merge_flush_once "users" [("user_id", "1")] "messages" [] 3
    (by omega) (fun p hp => absurd hp (List.not_mem_nil p))
    (fun p hp => absurd hp (List.not_mem_nil p))
  exact ⟨⟨by omega, fun p hp => absurd hp (List.not_mem_nil p)⟩, h.1, h.2.1, h.2.2⟩

/-! ### Claim C6: the flush loop and cancellation -/

/-- What the flush loop observes at its `await` point between flushes:
the sleep completes (a timer tick, followed by a full flush) or the
task's `CancelledError` arrives. -/
inductive WqEvent where
  | tick : WqEvent
  | cancel : WqEvent
deriving DecidableEq

/-- `WriteQueue._flush_loop` driven by a schedule of events: a tick runs
one flush; `CancelledError` breaks out of the loop at once.  Returns the
final buffer, the op batches of the flushes that ran, and whether the
loop terminated. -/
def flushLoop (b : WqBuffer) : List WqEvent → WqBuffer × List (List WqOp) × Bool
  | [] => (b, [], false)
  | WqEvent.tick :: rest =>
      let f := wqFlush b
      let r := flushLoop f.1 rest
      (r.1, f.2 :: r.2.1, r.2.2)
  | WqEvent.cancel :: _ => (b, [], true)

/-- C6: cancellation delivered during the inter-tick sleep makes the
loop terminate at once with zero flushes and the one pending increment
still in the buffer — no final flush of the non-empty buffer is ever
attempted, although a single further tick would have flushed it. -/
theorem flush_loop_cancel_drops_buffer :
    increment_stat [] "users" [("user_id", "1")] "messages" 1 =
      [(wqKey "users" [("user_id", "1")] "messages", ⟨1, [("user_id", "1")], "users"⟩)] ∧
    flushLoop (increment_stat [] "users" [("user_id", "1")] "messages" 1) [WqEvent.cancel] =
      (increment_stat [] "users" [("user_id", "1")] "messages" 1, [], true) ∧
    increment_stat [] "users" [("user_id", "1")] "messages" 1 ≠ [] ∧
    flushLoop (increment_stat [] "users" [("user_id", "1")] "messages" 1)
        [WqEvent.tick, WqEvent.cancel] =
      ([], [[⟨"users", [("user_id", "1")], "messages", 1⟩]], true) := by
  refine ⟨rfl, rfl, by simp [increment_stat, wqUpd], ?_⟩
  rfl

end NarutoBot
